import Mathlib

/-!
Verification of the advisor-cli command resolution core (src/main.rs),
shallowly embedded in Lean.

Rust `Vec<String>` is embedded as `List String`, `Option<&T>` as `Option T`,
`Result<T, E>` as `Except E T`.  A Rust function that can panic (index out of
bounds) is embedded as an `Option`-returning function, `none` marking the
panic.  `HashMap<String, String>` (only used by the never-constructed
`CreatePerson` payload) is embedded as an association list.
-/

namespace AdvisorCli

/-- The error enum of src/main.rs (snafu-derived). -/
inductive Error where
  | CouldNotFindConfig
  | RemoteAPIError
deriving DecidableEq, Repr

/-- Embeds `struct AdvisorApp` with fields `name` and `location`. -/
structure AdvisorApp where
  name : String
  location : String
deriving DecidableEq, Repr

/-- Embeds `AdvisorApp::healthcheck`: the location followed by `/healthcheck`. -/
def AdvisorApp.healthcheck (a : AdvisorApp) : String :=
  a.location ++ "/healthcheck"

/-- Embeds `AdvisorApp::list_people`: the location followed by `/admin/people`. -/
def AdvisorApp.list_people (a : AdvisorApp) : String :=
  a.location ++ "/admin/people"

/-- Embeds `struct Config` with its list of apps. -/
structure Config where
  apps : List AdvisorApp
deriving DecidableEq, Repr

/-- Embeds `Config::for_app`: `self.apps.iter().find(|a| a.name == name)`. -/
def Config.for_app (c : Config) (name : String) : Option AdvisorApp :=
  c.apps.find? (fun a => a.name == name)

/-- The outcome of the surf transport that `get` awaits: `failure` covers a
connect failure or the expiry of the timeout (the first `await` returns
`Err`); `response b` is a received response whose `body_string()` read
yields `b` when `b = some body` and fails when `b = none`. -/
inductive RequestOutcome where
  | failure
  | response (body : Option String)
deriving DecidableEq, Repr

/-- The timeout `get` installs on the request: `Duration::from_secs(1)`. -/
def getTimeoutSecs : Nat := 1

/-- Embeds `async fn get(endpoint) -> SnafuResult<String>`: both the timed request
and the body read map any failure to `RemoteAPIError` via `or_else`. -/
def get (outcome : RequestOutcome) : Except Error String :=
  match outcome with
  | RequestOutcome.failure => Except.error Error.RemoteAPIError
  | RequestOutcome.response none => Except.error Error.RemoteAPIError
  | RequestOutcome.response (some body) => Except.ok body

/-- Embeds `type PersonParams = HashMap<String, String>` as an association list. -/
def PersonParams := List (String × String)
deriving DecidableEq, Repr

/-- The `Command` enum of src/main.rs. -/
inductive Command where
  | ShowQuestionnaires
  | ShowPeople
  | DeletePerson (email : String)
  | CreatePerson (params : PersonParams)
  | AddPersonToQuestionnaire (id : String) (email : String)
  | RemovePersonFromQuestionnaire (id : String) (email : String)
  | Unknown (arguments : List String)
deriving DecidableEq, Repr

/-- The tail of `Command::parse` reached when the `create person` guard is
checked: the `for chunk in remainder.chunks_exact(2) {}` loop has an empty
body, so whether or not the guard matches, control falls through to
`Unknown(arguments)`. -/
def Command.parseCreate (arguments : List String) : Option Command :=
  if arguments[0]? = some "create" ∧ arguments[1]? = some "person" then
    some (Command.Unknown arguments)
  else
    some (Command.Unknown arguments)

/-- The tail of `Command::parse` from the `update` guard on.  When the third
token is `add` or `remove`, the source indexes `arguments[1]` and
`arguments[3]` directly; an out-of-bounds index panics, embedded as `none`. -/
def Command.parseUpdate (arguments : List String) : Option Command :=
  if arguments[0]? = some "update" then
    match arguments[2]? with
    | some a =>
      if a = "add" then
        match arguments[1]?, arguments[3]? with
        | some id, some email => some (Command.AddPersonToQuestionnaire id email)
        | _, _ => none
      else if a = "remove" then
        match arguments[1]?, arguments[3]? with
        | some id, some email => some (Command.RemovePersonFromQuestionnaire id email)
        | _, _ => none
      else
        Command.parseCreate arguments
    | none => Command.parseCreate arguments
  else
    Command.parseCreate arguments

/-- Embeds `Command::parse(arguments: Vec<String>) -> Command`, a fixed priority
chain of guards.  Note the source literal `"questionnares"` (sic). -/
def Command.parse (arguments : List String) : Option Command :=
  if arguments = ["show", "people"] then
    some Command.ShowPeople
  else if arguments = ["show", "questionnares"] then
    some Command.ShowQuestionnaires
  else if arguments[0]? = some "delete" then
    match arguments[1]? with
    | some email => some (Command.DeletePerson email)
    | none => Command.parseUpdate arguments
  else
    Command.parseUpdate arguments

/-- Embeds `fn has_at(v: String) -> Result<(), String>`: `v.contains("@")` is
containment of the single character `@`. -/
def has_at (v : String) : Except String Unit :=
  if v.data.contains '@' then
    Except.ok ()
  else
    Except.error "The value did not contain the required @ sigil"

/-- Modelled from the spec: src/main.rs has no authentication code — its
`AdvisorApp` carries no `auth_token` field and `get` attaches no header.
The spec's Authentication type is two-case: `None` or `Bearer(token)`. -/
inductive Auth where
  | noAuth
  | bearer (token : String)
deriving DecidableEq, Repr

/-- Modelled from the spec: the authentication derived from the resolved
instance's optional `auth_token`: `Bearer` iff present and non-empty,
else `None`. -/
def deriveAuth (auth_token : Option String) : Auth :=
  match auth_token with
  | none => Auth.noAuth
  | some t => if t = "" then Auth.noAuth else Auth.bearer t

/-- Modelled from the spec: the Authorization header attached to a request
for a given authentication value; no header is sent for `None`. -/
def authHeader (a : Auth) : Option (String × String) :=
  match a with
  | Auth.noAuth => none
  | Auth.bearer t => some ("Authorization", "Bearer " ++ t)

end AdvisorCli

namespace AdvisorCli

/-- C5: for every string `s`, `has_at s` succeeds exactly when `s` contains
at least one `@` character, and returns an error value otherwise. -/
theorem has_at_ok_iff (s : String) :
    (has_at s = Except.ok () ↔ '@' ∈ s.data) ∧
    (has_at s = Except.error "The value did not contain the required @ sigil" ↔
      '@' ∉ s.data) := by
  unfold has_at
  constructor
  · constructor
    · intro h
      by_contra hmem
      simp [List.contains, List.elem_eq_mem, hmem] at h
    · intro hmem
      simp [List.contains, List.elem_eq_mem, hmem]
  · constructor
    · intro h hmem
      simp [List.contains, List.elem_eq_mem, hmem] at h
    · intro hmem
      simp [List.contains, List.elem_eq_mem, hmem]

/-- C6: `Command::parse` maps `["update","123a","add","a@b.com"]` to
`AddPersonToQuestionnaire{id:"123a", email:"a@b.com"}` and the same tokens
with `"remove"` in place of `"add"` to `RemovePersonFromQuestionnaire`. -/
theorem parse_update_add_remove :
    Command.parse ["update", "123a", "add", "a@b.com"] =
      some (Command.AddPersonToQuestionnaire "123a" "a@b.com") ∧
    Command.parse ["update", "123a", "remove", "a@b.com"] =
      some (Command.RemovePersonFromQuestionnaire "123a" "a@b.com") := by
  constructor <;> rfl

/-- C2 (code evaluated at the failing input): the `create person` chunk loop
has an empty body, so the tokens of the source's own `test_create_person`
fall through to `Unknown`, not `CreatePerson`. -/
theorem parse_create_person_is_unknown :
    Command.parse ["create", "person", "--email", "a@b.com", "--name", "Steve"] =
      some (Command.Unknown
        ["create", "person", "--email", "a@b.com", "--name", "Steve"]) := by
  rfl

/-- C3 (code evaluated at the failing input): `show people` parses as
claimed, but the correctly spelled `show questionnaires` falls through to
`Unknown` because the source compares against the misspelled literal
`"questionnares"`, which clap's declared value set never produces. -/
theorem parse_show_kinds :
    Command.parse ["show", "people"] = some Command.ShowPeople ∧
    Command.parse ["show", "questionnaires"] =
      some (Command.Unknown ["show", "questionnaires"]) ∧
    Command.parse ["show", "questionnares"] = some Command.ShowQuestionnaires := by
  refine ⟨rfl, ?_, rfl⟩
  rfl

/-- C1 counterexample: `Command::parse` builds `DeletePerson` around an
email with no `@`; `has_at` (used only as a clap validator) rejects it. -/
theorem parse_delete_without_at :
    Command.parse ["delete", "nobody"] = some (Command.DeletePerson "nobody") ∧
    has_at "nobody" =
      Except.error "The value did not contain the required @ sigil" :=
  ⟨rfl, rfl⟩

/-- C1 (amended): `Command::parse` performs no email validation at all:
whatever token sits in the email position is copied verbatim into the typed
field of `DeletePerson`, `AddPersonToQuestionnaire` and
`RemovePersonFromQuestionnaire`, with or without an `@`. -/
theorem parse_email_passthrough :
    (∀ email : String,
      Command.parse ["delete", email] = some (Command.DeletePerson email)) ∧
    (∀ id email : String,
      Command.parse ["update", id, "add", email] =
        some (Command.AddPersonToQuestionnaire id email)) ∧
    (∀ id email : String,
      Command.parse ["update", id, "remove", email] =
        some (Command.RemovePersonFromQuestionnaire id email)) :=
  ⟨fun _ => rfl, fun _ _ => rfl, fun _ _ => rfl⟩

theorem Command.parseCreate_unknown (arguments : List String) :
    Command.parseCreate arguments = some (Command.Unknown arguments) := by
  unfold Command.parseCreate
  split <;> rfl

theorem Command.parseUpdate_eq_none_iff (arguments : List String) :
    Command.parseUpdate arguments = none ↔
      arguments[0]? = some "update" ∧ arguments.length = 3 ∧
        (arguments[2]? = some "add" ∨ arguments[2]? = some "remove") := by
  unfold Command.parseUpdate
  by_cases h0 : arguments[0]? = some "update"
  · rw [if_pos h0]
    cases h2 : arguments[2]? with
    | none =>
      simp [Command.parseCreate_unknown, h2]
    | some a =>
      have hlen2 : 2 < arguments.length := by
        rcases List.getElem?_eq_some.mp h2 with ⟨h, -⟩
        exact h
      by_cases hadd : a = "add"
      · subst hadd
        cases h1 : arguments[1]? with
        | none =>
          exact absurd (List.getElem?_eq_none_iff.mp h1) (by omega)
        | some id =>
          cases h3 : arguments[3]? with
          | none =>
            have hlen3 : arguments.length ≤ 3 := List.getElem?_eq_none_iff.mp h3
            have hlen : arguments.length = 3 := by omega
            simp [h0, hlen]
          | some email =>
            have hlen4 : 3 < arguments.length := by
              rcases List.getElem?_eq_some.mp h3 with ⟨h, -⟩
              exact h
            have hlen : arguments.length ≠ 3 := by omega
            simp [hlen]
      · by_cases hrem : a = "remove"
        · subst hrem
          cases h1 : arguments[1]? with
          | none =>
            exact absurd (List.getElem?_eq_none_iff.mp h1) (by omega)
          | some id =>
            cases h3 : arguments[3]? with
            | none =>
              have hlen3 : arguments.length ≤ 3 := List.getElem?_eq_none_iff.mp h3
              have hlen : arguments.length = 3 := by omega
              simp [h0, hlen]
            | some email =>
              have hlen4 : 3 < arguments.length := by
                rcases List.getElem?_eq_some.mp h3 with ⟨h, -⟩
                exact h
              have hlen : arguments.length ≠ 3 := by omega
              simp [hlen]
        · simp [Command.parseCreate_unknown, hadd, hrem]
  · rw [if_neg h0, Command.parseCreate_unknown]
    simp [h0]

theorem Command.parse_eq_none_iff (arguments : List String) :
    Command.parse arguments = none ↔
      arguments[0]? = some "update" ∧ arguments.length = 3 ∧
        (arguments[2]? = some "add" ∨ arguments[2]? = some "remove") := by
  by_cases hsp : arguments = ["show", "people"]
  · subst hsp
    decide
  · by_cases hsq : arguments = ["show", "questionnares"]
    · subst hsq
      decide
    · unfold Command.parse
      rw [if_neg hsp, if_neg hsq]
      by_cases hd : arguments[0]? = some "delete"
      · rw [if_pos hd]
        cases h1 : arguments[1]? with
        | none =>
          exact Command.parseUpdate_eq_none_iff arguments
        | some email =>
          constructor
          · intro h
            exact Option.noConfusion h
          · rintro ⟨hu, -, -⟩
            rw [hd] at hu
            exact absurd (Option.some.inj hu) (by decide)
      · rw [if_neg hd]
        exact Command.parseUpdate_eq_none_iff arguments

/-- C4 counterexample: on the three-token list `["update","123a","add"]`
the source indexes `arguments[3]`, which is out of bounds — a panic,
embedded as `none`: `Command::parse` is not total. -/
theorem parse_update_three_tokens_panics :
    Command.parse ["update", "123a", "add"] = none := rfl

/-- C4 (amended): `Command::parse` returns a `Command` for every token list
except exactly-three-token lists whose first token is `update` and whose
third is `add` or `remove`, where indexing `arguments[3]` panics; any input
matching no earlier pattern falls through to `Unknown` with the original
tokens. -/
theorem parse_totality_characterization :
    (∀ arguments : List String,
      Command.parse arguments = none ↔
        arguments[0]? = some "update" ∧ arguments.length = 3 ∧
          (arguments[2]? = some "add" ∨ arguments[2]? = some "remove")) ∧
    Command.parse ["foo", "bar"] = some (Command.Unknown ["foo", "bar"]) :=
  ⟨Command.parse_eq_none_iff, rfl⟩

/-- C7 counterexample: the one HTTP executor `get` hard-codes
`Duration::from_secs(1)`; no call — the people listing included — uses a
5-second timeout. -/
theorem getTimeout_not_five : getTimeoutSecs = 1 ∧ getTimeoutSecs ≠ 5 := by
  decide

/-- C7 (amended): `get` returns the body on success and classifies every
transport-level failure — connect failure, timeout, body-read failure — as
`RemoteAPIError`, with no other error kind; its timeout is 1 second for
every call, the people listing included. -/
theorem get_classification :
    (∀ o : RequestOutcome,
      (∃ body, o = RequestOutcome.response (some body) ∧ get o = Except.ok body) ∨
        get o = Except.error Error.RemoteAPIError) ∧
    getTimeoutSecs = 1 := by
  refine ⟨?_, rfl⟩
  intro o
  match o with
  | RequestOutcome.failure => exact Or.inr rfl
  | RequestOutcome.response none => exact Or.inr rfl
  | RequestOutcome.response (some b) => exact Or.inl ⟨b, rfl, rfl⟩

/-- C8: the authentication value is derived deterministically from the
optional `auth_token`: `Bearer t` exactly when the token `t` is present and
non-empty — then the `Authorization: Bearer t` header is attached — and
`None`, with no auth header, otherwise. -/
theorem deriveAuth_spec :
    (∀ t : String, t ≠ "" →
      deriveAuth (some t) = Auth.bearer t ∧
        authHeader (deriveAuth (some t)) =
          some ("Authorization", "Bearer " ++ t)) ∧
    deriveAuth (some "") = Auth.noAuth ∧
    deriveAuth none = Auth.noAuth ∧
    authHeader Auth.noAuth = none := by
  refine ⟨?_, rfl, rfl, rfl⟩
  intro t ht
  constructor
  · simp [deriveAuth, ht]
  · simp [deriveAuth, authHeader, ht]

/-- Witness for C8 at the token `"secret"`. -/
theorem deriveAuth_spec_witness :
    deriveAuth (some "secret") = Auth.bearer "secret" ∧
      authHeader (deriveAuth (some "secret")) =
        some ("Authorization", "Bearer " ++ "secret") :=
  deriveAuth_spec.1 "secret" (by decide)

/-- C9: `Config::for_app` looks an instance up by exact name match: a
returned instance is a configured one bearing exactly the requested name,
and the lookup returns nothing precisely when no configured instance bears
that name. -/
theorem for_app_exact_match (c : Config) (n : String) :
    (∀ a, c.for_app n = some a → a ∈ c.apps ∧ a.name = n) ∧
    (c.for_app n = none ↔ ∀ a ∈ c.apps, a.name ≠ n) := by
  constructor
  · intro a h
    refine ⟨List.mem_of_find?_eq_some h, ?_⟩
    have hp := List.find?_some h
    simpa using hp
  · unfold Config.for_app
    rw [List.find?_eq_none]
    constructor
    · intro h a ha
      simpa using h a ha
    · intro h a ha
      simpa using h a ha

/-- Witness for C9 on a one-instance registry, with a hit and a miss. -/
theorem for_app_exact_match_witness :
    (AdvisorApp.mk "prod" "http://prod" ∈
        (Config.mk [AdvisorApp.mk "prod" "http://prod"]).apps ∧
      (AdvisorApp.mk "prod" "http://prod").name = "prod") ∧
    Config.for_app (Config.mk [AdvisorApp.mk "prod" "http://prod"]) "qa" =
      none :=
  ⟨(for_app_exact_match (Config.mk [AdvisorApp.mk "prod" "http://prod"])
      "prod").1 (AdvisorApp.mk "prod" "http://prod") rfl,
   (for_app_exact_match (Config.mk [AdvisorApp.mk "prod" "http://prod"])
      "qa").2.mpr (by decide)⟩

/-- C10: with duplicate names in the registry, `Config::for_app` returns
the first instance carrying the requested name in configured order; the
later duplicates are never consulted and the lookup does not fail. -/
theorem for_app_first_duplicate (l1 l2 : List AdvisorApp) (a : AdvisorApp)
    (n : String) (ha : a.name = n) :
    (∀ b ∈ l1, b.name ≠ n) →
      Config.for_app (Config.mk (l1 ++ a :: l2)) n = some a := by
  induction l1 with
  | nil =>
    intro hl1
    unfold Config.for_app
    simp only [List.nil_append]
    exact List.find?_cons_of_pos _ (by simp [ha])
  | cons b t ih =>
    intro hl1
    have hb : b.name ≠ n := hl1 b (List.mem_cons_self b t)
    unfold Config.for_app
    simp only [List.cons_append]
    rw [List.find?_cons_of_neg _ (by simp [hb])]
    exact ih (fun x hx => hl1 x (List.mem_cons_of_mem b hx))

/-- Witness for C10: two instances named `"prod"`; the first one wins. -/
theorem for_app_first_duplicate_witness :
    Config.for_app
        (Config.mk [AdvisorApp.mk "prod" "first", AdvisorApp.mk "prod" "second"])
        "prod" =
      some (AdvisorApp.mk "prod" "first") :=
  for_app_first_duplicate [] [AdvisorApp.mk "prod" "second"]
    (AdvisorApp.mk "prod" "first") "prod" rfl (by decide)

end AdvisorCli
